import Mathlib

/-!
Verification of the DemoViewer ingestion / caching / rendering pipeline.

The definitions below are shallow embeddings of the functions in
`DemoViewer/parser.py`, `DemoViewer/actions.py`, `DemoViewer/window.py` and
`DemoViewer/heatmap.py`.  Machine floats that only carry exact small values in
the verified paths are modelled by `ℚ`; Python dicts by association lists;
Python sets by `Finset`; the pickle layer by a total encoding on an explicit
`StoredData` record (pickle round-trips every value it is given, so the
content of the serialisation step is the packing/unpacking of that record).
-/

namespace DemoViewer

/-! ### Team normalisation (`parser.py`, `normalize_team_name`)

`normalize_team_name` receives either `None`, a string, or a numeric team
code; Python's `str()` and truthiness are modelled explicitly. -/

/-- A raw team value as it arrives from the decoder: Python `None`, a string,
or an integer team code. -/
inductive TeamValue where
  | pyNone : TeamValue
  | str (s : String) : TeamValue
  | num (n : Int) : TeamValue
deriving DecidableEq, Repr

/-- Python truthiness of a raw team value (`if not team_name`). -/
def pyTruthy : TeamValue → Bool
  | .pyNone => false
  | .str s => s ≠ ""
  | .num n => n ≠ 0

/-- Python `str()` of a raw team value. -/
def pyStr : TeamValue → String
  | .pyNone => "None"
  | .str s => s
  | .num n => toString n

/-- Python `str.upper()` restricted to the ASCII values that occur in team
codes (kernel-reducible form of `String.toUpper`). -/
def pyUpper (s : String) : String :=
  String.mk (s.data.map Char.toUpper)

/-- The team codes mapped to `CT` by `normalize_team_name`. -/
def ctCodes : List String := ["CT", "COUNTERTERRORIST", "COUNTER-TERRORIST", "3"]

/-- The team codes mapped to `T` by `normalize_team_name`. -/
def tCodes : List String := ["T", "TERRORIST", "TERRORISTS", "2"]

/-- Embedding of `normalize_team_name` (parser.py lines 53-64). -/
def normalize_team_name (team_name : TeamValue) : Option String :=
  if ¬ pyTruthy team_name then none
  else
    let team_str := pyUpper (pyStr team_name)
    if team_str ∈ ctCodes then some "CT"
    else if team_str ∈ tCodes then some "T"
    else none

/-! ### Footstep downsampling (`window.py`, `HeatmapWindow.apply_downsampling`)

`np.linspace(0, L-1, num=L//n).astype(int)` with non-negative endpoints:
entry `i` is `i * (L-1) / (num-1)` truncated toward zero, which for these
non-negative exact binary values coincides with natural division. -/

/-- Embedding of `np.linspace(0, stop, num).astype(int)` for natural `stop`:
`num = 0` gives the empty array, `num = 1` gives `[0]`, and otherwise entry
`i` is the truncation of `i * stop / (num - 1)`. -/
def linspaceIdx (stop num : Nat) : List Nat :=
  if num = 0 then []
  else if num = 1 then [0]
  else (List.range num).map (fun i => i * stop / (num - 1))

/-- Embedding of `HeatmapWindow.apply_downsampling` (window.py lines 306-311):
`n := max 1 downsample_n`; short inputs or `n ≤ 1` are returned unchanged,
otherwise the elements at the `linspace`-selected indices are kept. -/
def apply_downsampling (downsample_n : Nat) (footsteps : List α) : List α :=
  let n := max 1 downsample_n
  if n ≤ 1 ∨ footsteps.length ≤ 1 then footsteps
  else
    let idxs := linspaceIdx (footsteps.length - 1) (footsteps.length / n)
    idxs.filterMap (fun i => footsteps[i]?)

/-! ### The normalized demo record and its pickled form (`parser.py`)

`DemoFileParser` holds `header`, `footsteps`, `rounds`, `players` (a Python
set), `player_teams` (a dict), `player_deaths` and `weapon_popularity`
(DataFrames, modelled as row lists).  Coordinates are modelled by `ℤ`: no
claim depends on coordinate arithmetic.  `stored_data` (parser.py lines
264-273) is the dict handed to `pickle.dump`; pickle itself round-trips every
value, so serialisation is modelled as the packing of `StoredData`, with
`players` passing through `list(...)` on the way out and `set(...)` on the
way back in (parser.py lines 120 and 269). -/

/-- One `(tick, x, y, player, normalized-team)` footstep sample. -/
abbrev Footstep := Nat × Int × Int × Option String × Option String

/-- One row of the `rounds` list: `{"winner": ..., "round_num": ...}`. -/
structure RoundInfo where
  winner : String
  round_num : Int
deriving DecidableEq, Repr

/-- The in-memory parse result of one demo file (fields of `DemoFileParser`). -/
structure NormalizedDemo where
  header : List (String × String)
  footsteps : List Footstep
  rounds : List RoundInfo
  players : Finset String
  player_teams : List (String × String)
  player_deaths : List (String × Int × Int)
  weapon_popularity : List (String × Nat)
deriving DecidableEq

/-- The dict written by `pickle.dump` (parser.py lines 265-273): identical to
`NormalizedDemo` except that `players` has been through `list(...)`. -/
structure StoredData where
  header : List (String × String)
  footsteps : List Footstep
  rounds : List RoundInfo
  players : List String
  player_teams : List (String × String)
  player_deaths : List (String × Int × Int)
  weapon_popularity : List (String × Nat)
deriving DecidableEq

/-- Packing of `stored_data` before `pickle.dump`: every field is stored
as-is, the `players` set as `list(self.players)`. -/
def serialize (d : NormalizedDemo) : StoredData :=
  { header := d.header
    footsteps := d.footsteps
    rounds := d.rounds
    players := d.players.sort (· ≤ ·)
    player_teams := d.player_teams
    player_deaths := d.player_deaths
    weapon_popularity := d.weapon_popularity }

/-- Field extraction performed by `_load_from_cache` / `_load_from_memory_cache`
(parser.py lines 117-123 and 136-153): `players = set(loaded_data["players"])`,
every other field taken as-is.  (The `.get(..., default)` fallbacks only fire
for artifacts not written by this program; artifacts written by `_parse`
always carry all seven keys.) -/
def loadStored (s : StoredData) : NormalizedDemo :=
  { header := s.header
    footsteps := s.footsteps
    rounds := s.rounds
    players := s.players.toFinset
    player_teams := s.player_teams
    player_deaths := s.player_deaths
    weapon_popularity := s.weapon_popularity }

/-! ### Cache key derivation (`parser.py`, `external_cache_path`) -/

/-- A character kept verbatim by the `re.sub(r"[^a-zA-Z0-9_.-]+", "_", ...)`
sanitisation. -/
def allowedChar (c : Char) : Bool :=
  c.isAlpha || c.isDigit || c = '_' || c = '.' || c = '-'

/-- `re.sub(r"[^a-zA-Z0-9_.-]+", "_", s)`: each maximal run of disallowed
characters is replaced by a single `_`.  The boolean tracks whether the
previous character belonged to such a run. -/
def sanitizeAux : Bool → List Char → List Char
  | _, [] => []
  | inRun, c :: rest =>
    if allowedChar c then c :: sanitizeAux false rest
    else if inRun then sanitizeAux true rest
    else '_' :: sanitizeAux true rest

/-- `os.path.basename` on a POSIX path: the characters after the last `/`
(scanned left to right, resetting at each separator). -/
def basename (p : String) : String :=
  String.mk (p.data.foldl (fun acc c => if c = '/' then [] else acc ++ [c]) [])

/-- Embedding of `external_cache_path` (parser.py lines 66-69).  `CACHE_FOLDER`
is `<cwd>/dem_cache`; the cwd prefix is constant per process and elided. -/
def external_cache_path (demo_path : String) : String :=
  "dem_cache/demcache_" ++ String.mk (sanitizeAux false (basename demo_path).data) ++ ".pkl"

/-! ### The two cache tiers and the lookup phase of `_parse` (`parser.py`)

`demoDataCache` (the in-process tier) and the on-disk artifact directory are
modelled as key-indexed maps.  A disk artifact is absent, present-but-corrupt
(any `pickle.load` failure), or present with decodable content. -/

/-- State of the on-disk artifact for one cache path. -/
inductive DiskArtifact where
  | absent : DiskArtifact
  | corrupt : DiskArtifact
  | valid (s : StoredData) : DiskArtifact
deriving DecidableEq

/-- Both cache tiers: the in-process `demoDataCache` keyed by the absolute
demo path, and the disk directory keyed by the artifact path. -/
structure CacheState where
  mem : String → Option StoredData
  disk : String → DiskArtifact

/-- `os.path.isfile(cache_file)`: the artifact exists (readable or not). -/
def isfile : DiskArtifact → Bool
  | .absent => false
  | .corrupt => true
  | .valid _ => true

/-- `pickle.load` on an open artifact: corrupt content raises, modelled as
`Except.error`. -/
def rawPickleLoad : DiskArtifact → Except String StoredData
  | .absent => .error "FileNotFoundError"
  | .corrupt => .error "UnpicklingError"
  | .valid s => .ok s

/-- Embedding of `DemoFileParser._load_from_cache` (parser.py lines 113-130):
on success the loaded dict is inserted into the in-process tier and `True` is
returned; any exception is swallowed and `False` (here `none`) is returned. -/
def load_from_cache (st : CacheState) (file : String) (art : DiskArtifact) :
    Option (StoredData × CacheState) :=
  match rawPickleLoad art with
  | .ok s =>
      some (s, { st with mem := fun f => if f = file then some s else st.mem f })
  | .error _ => none

/-- Embedding of `DemoFileParser._load_from_memory_cache` (parser.py lines
132-155): a pure lookup in the in-process tier. -/
def load_from_memory_cache (st : CacheState) (file : String) : Option StoredData :=
  st.mem file

/-- The cache-lookup phase of `DemoFileParser._parse` (parser.py lines
157-164): first `os.path.isfile(cache_file) and self._load_from_cache(...)`,
then `self._load_from_memory_cache()`; `none` means both tiers missed and the
fresh-parse path runs. -/
def parseLookup (st : CacheState) (file : String) : Option StoredData × CacheState :=
  let cf := external_cache_path file
  if isfile (st.disk cf) then
    match load_from_cache st file (st.disk cf) with
    | some (s, st') => (some s, st')
    | none =>
        match load_from_memory_cache st file with
        | some s => (some s, st)
        | none => (none, st)
  else
    match load_from_memory_cache st file with
    | some s => (some s, st)
    | none => (none, st)

/-- The cache-store phase of `_parse` (parser.py lines 274-284): insert the
stored dict into the in-process tier and write the pickle artifact. -/
def storeStep (st : CacheState) (file : String) (s : StoredData) : CacheState :=
  { mem := fun f => if f = file then some s else st.mem f
    disk := fun p => if p = external_cache_path file then .valid s else st.disk p }

/-- `DemoFileParser._parse` with the decoder's fresh-parse output abstracted
as the `fresh` argument (the decoder is an external library): cache lookup,
then on a double miss the fresh result is normalized and stored to both
tiers. -/
def parse (st : CacheState) (file : String) (fresh : StoredData) :
    StoredData × CacheState :=
  match parseLookup st file with
  | (some s, st') => (s, st')
  | (none, st') => (fresh, storeStep st' file fresh)

/-- `put` of the spec's CacheStore: what `_parse` does with a freshly parsed
demo `d` — both tiers receive `serialize d` (parser.py lines 264-284). -/
def cachePut (st : CacheState) (file : String) (d : NormalizedDemo) : CacheState :=
  storeStep st file (serialize d)

/-- `get` of the spec's CacheStore: the lookup phase of `_parse`, returning
the `NormalizedDemo` reconstructed by the load methods' field extraction. -/
def cacheGet (st : CacheState) (file : String) : Option NormalizedDemo :=
  ((parseLookup st file).1).map loadStored

/-! ### Disk-budget eviction (`parser.py`, `check_cache_folder_size`) -/

/-- One file found by `os.walk` over the cache folder. -/
structure CacheFile where
  path : String
  size : Nat
  mtime : Nat
deriving DecidableEq, Repr

/-- Total size in bytes of a directory listing. -/
def totalSize (fs : List CacheFile) : Nat := (fs.map (fun f => f.size)).sum

/-- Stable insertion of a file into an mtime-ascending list (a later-walked
file goes after earlier files of equal mtime, as with Python's stable
`sorted`). -/
def insertByMtime (f : CacheFile) : List CacheFile → List CacheFile
  | [] => [f]
  | g :: rest =>
      if f.mtime < g.mtime then f :: g :: rest else g :: insertByMtime f rest

/-- `sorted(files, key=lambda x: os.path.getmtime(x[0]))`: stable sort by
ascending mtime. -/
def sortByMtime (fs : List CacheFile) : List CacheFile :=
  fs.foldl (fun acc f => insertByMtime f acc) []

/-- The deletion loop of `check_cache_folder_size` (parser.py lines 86-93):
walk the mtime-sorted list, stop as soon as the running total is within
budget, otherwise delete and subtract.  Deletions are modelled as succeeding
(the `except: pass` failure path leaves a file behind only on an OS error). -/
def evictLoop (maxB : Nat) : Nat → List CacheFile → List CacheFile
  | _, [] => []
  | total, f :: rest =>
      if total ≤ maxB then []
      else f :: evictLoop maxB (total - f.size) rest

/-- The files deleted by `check_cache_folder_size(maxB)` on a directory
listing `files` (parser.py lines 71-93): nothing when the total is within
budget, otherwise the deletion loop over the mtime-sorted listing. -/
def deletedFiles (maxB : Nat) (files : List CacheFile) : List CacheFile :=
  if totalSize files > maxB then evictLoop maxB (totalSize files) (sortByMtime files)
  else []

/-- The files surviving `check_cache_folder_size(maxB)`.  The deletion loop
removes a prefix of the mtime-sorted listing (proved below), so the survivors
are the matching suffix. -/
def remainingFiles (maxB : Nat) (files : List CacheFile) : List CacheFile :=
  (sortByMtime files).drop (deletedFiles maxB files).length

/-- The cache-directory effect of the store phase of `_parse` (parser.py
lines 279-284): `check_cache_folder_size()` runs first, the new artifact is
written after it. -/
def parseStorePhase (maxB : Nat) (files : List CacheFile) (newArtifact : CacheFile) :
    List CacheFile :=
  remainingFiles maxB files ++ [newArtifact]

/-! ### Header handling and demo registration (`parser.py` lines 166-171,
`actions.py` lines 59-92)

`_parse` wraps `parser.parse_header()` in `try/except` and continues with an
empty header on failure.  `DemHeaderParseThread.run` reports a non-empty
error string only when the rest of the parse raises; `on_parsed` then rejects
the file on a non-empty error or a missing `map_name`, and otherwise appends
it to the loaded list.  (The second `DemoFileParser(f)` call inside
`on_parsed` re-reads the cache entry just written by the thread's parse, so
it succeeds whenever the thread's parse did.) -/

/-- Outcome of `parser.parse_header()`: a header dict or a raised exception. -/
inductive HeaderResult where
  | ok (h : List (String × String)) : HeaderResult
  | failed (msg : String) : HeaderResult
deriving DecidableEq, Repr

/-- `self.header` after the `try/except` of parser.py lines 168-171: the
parsed header, or `{}` when reading it raised. -/
def effectiveHeader : HeaderResult → List (String × String)
  | .ok h => h
  | .failed _ => []

/-- One file's parse as seen by `DemHeaderParseThread.run`: the header
outcome, and whether the remaining extraction stages raised no exception. -/
structure ParseRun where
  headerResult : HeaderResult
  othersOk : Bool
deriving DecidableEq, Repr

/-- The `err` string emitted by `DemHeaderParseThread.run` (actions.py via
parser.py lines 297-311): empty on success. -/
def threadErr (r : ParseRun) : String :=
  if r.othersOk then "" else "event extraction failed"

/-- The `hdr` dict emitted by `DemHeaderParseThread.run`: `dp.header` on
success, the initial `{}` when the parse raised. -/
def threadHdr (r : ParseRun) : List (String × String) :=
  if r.othersOk then effectiveHeader r.headerResult else []

/-- `hdr.get("map_name", "")` (actions.py line 66). -/
def map_name (h : List (String × String)) : String := (h.lookup "map_name").getD ""

/-- The registration decision of `on_parsed` (actions.py lines 59-80): reject
on a reported error, reject on a missing map identifier, register otherwise. -/
def open_dem_registers (r : ParseRun) : Bool :=
  threadErr r == "" && map_name (threadHdr r) != ""

/-- Effect of `on_parsed` on the `loaded` list (actions.py lines 63-87). -/
def on_parsed (loaded : List String) (file : String) (r : ParseRun) : List String :=
  if open_dem_registers r then loaded ++ [file] else loaded

/-! ### Density rendering (`heatmap.py`, `heatmap_to_qimage`)

The grid values are exact in the verified paths and modelled by `ℚ`.  The
`norm ** gamma` power (only reachable in the `vmax > vmin` branch) is an
irrational-valued float operation; it is abstracted as an arbitrary function
argument `powGamma`, so every theorem below quantifies over it.  The output
is modelled by its alpha channel, the only channel the claims constrain. -/

/-- A density grid: rows of rational cell values. -/
abbrev Grid := List (List ℚ)

/-- All cell values of a grid. -/
def gridEntries (g : Grid) : List ℚ := g.flatten

/-- `data.size` of the numpy array. -/
def gridSize (g : Grid) : Nat := (gridEntries g).length

/-- `np.flipud`. -/
def flipud (g : Grid) : Grid := g.reverse

/-- `data.max()` (0 on the empty grid, which `heatmap_to_qimage` never
reaches thanks to its `data.size == 0` guard). -/
def gridMax (g : Grid) : ℚ :=
  match gridEntries g with
  | [] => 0
  | x :: xs => xs.foldl max x

/-- `data.min()`. -/
def gridMin (g : Grid) : ℚ :=
  match gridEntries g with
  | [] => 0
  | x :: xs => xs.foldl min x

/-- `np.clip(x, 0, 1)`. -/
def clip01 (x : ℚ) : ℚ := max 0 (min 1 x)

/-- `.astype(np.uint8)` on a non-negative value: truncate, wrap mod 256. -/
def toUint8 (x : ℚ) : Nat := (Int.toNat ⌊x⌋) % 256

/-- The normalisation step of `heatmap_to_qimage` (heatmap.py lines 25-31):
gamma-compressed affine rescale when `vmax > vmin`, an all-zero grid
otherwise. -/
def heatNorm (powGamma : ℚ → ℚ) (d : Grid) : Grid :=
  if gridMax d > gridMin d then
    d.map (fun row => row.map (fun v => powGamma ((v - gridMin d) / (gridMax d - gridMin d))))
  else
    d.map (fun row => row.map (fun _ => 0))

/-- The alpha channel produced by `heatmap_to_qimage` (heatmap.py lines
22-45): flip, normalise, apply brightness/contrast with clipping, then
`alpha = (norm * 255).astype(np.uint8)`.  The empty-data early return yields
a 1×1 image of unspecified pixel content, modelled as having no defined
alpha data. -/
def heatmap_alpha (powGamma : ℚ → ℚ) (data : Grid) (brightness contrast : ℚ) :
    List (List Nat) :=
  if gridSize data = 0 then []
  else
    let d := flipud data
    let norm := heatNorm powGamma d
    let norm2 := norm.map (fun row =>
      row.map (fun x => clip01 (contrast * (x - 1/2) + 1/2 + brightness)))
    norm2.map (fun row => row.map (fun x => toUint8 (x * 255)))

/-- The cell at row `a`, column `b` of a grid (0 outside the grid). -/
def entryAt (g : Grid) (a b : Nat) : ℚ := ((g.getD a []).getD b 0)

/-- A discrete linear filter with arbitrary weights: output cell `(i, j)` is
`Σ w i j a b * g[a][b]`.  `scipy.ndimage.gaussian_filter` at any `sigma` is
such a filter (with reflect-padded Gaussian weights), so facts proved for
every weight function hold for every `sigma`. -/
def convolve2D (w : Nat → Nat → Nat → Nat → ℚ) (g : Grid) : Grid :=
  (List.range g.length).map fun i =>
    (List.range ((g.headD []).length)).map fun j =>
      ((List.range g.length).map fun a =>
        ((List.range ((g.headD []).length)).map fun b =>
          w i j a b * entryAt g a b).sum).sum

/-- Every cell of the grid holds the same value. -/
def allEqualGrid (g : Grid) : Prop :=
  ∀ v ∈ gridEntries g, ∀ u ∈ gridEntries g, v = u

/-- Every cell of the grid is zero. -/
def allZeroGrid (g : Grid) : Prop := ∀ v ∈ gridEntries g, v = 0

instance (g : Grid) : Decidable (allEqualGrid g) := by
  unfold allEqualGrid; infer_instance

instance (g : Grid) : Decidable (allZeroGrid g) := by
  unfold allZeroGrid; infer_instance

/-! ### Concrete states used by counterexamples and witnesses -/

/-- A stored demo whose header carries a map identifier. -/
def sdDisk : StoredData :=
  { header := [("map_name", "de_dust2")], footsteps := [], rounds := []
    players := [], player_teams := [], player_deaths := [], weapon_popularity := [] }

/-- A distinct stored demo (empty header). -/
def sdMem : StoredData :=
  { header := [], footsteps := [], rounds := [], players := []
    player_teams := [], player_deaths := [], weapon_popularity := [] }

/-- A cache state where the same demo file has different entries in the two
tiers: `sdMem` in the in-process tier, `sdDisk` in the on-disk tier. -/
def stTwoTier : CacheState :=
  { mem := fun f => if f = "/demos/a.dem" then some sdMem else none
    disk := fun p => if p = external_cache_path "/demos/a.dem" then .valid sdDisk else .absent }

/-- A cache state whose only disk artifact for `/demos/a.dem` is corrupt and
whose in-process tier is empty. -/
def stCorrupt : CacheState :=
  { mem := fun _ => none
    disk := fun p => if p = external_cache_path "/demos/a.dem" then .corrupt else .absent }

/-- A parse run whose header read raised but whose event extraction
succeeded. -/
def prFailedHeader : ParseRun :=
  { headerResult := .failed "cannot read header", othersOk := true }

/-! ## Helper lemmas -/

lemma totalSize_cons (f : CacheFile) (fs : List CacheFile) :
    totalSize (f :: fs) = f.size + totalSize fs := by simp [totalSize]

lemma totalSize_append (a b : List CacheFile) :
    totalSize (a ++ b) = totalSize a + totalSize b := by simp [totalSize]

lemma totalSize_insertByMtime (f : CacheFile) (xs : List CacheFile) :
    totalSize (insertByMtime f xs) = f.size + totalSize xs := by
  induction xs with
  | nil => simp [insertByMtime, totalSize]
  | cons g rest ih =>
    unfold insertByMtime
    split
    · simp [totalSize_cons]
    · simp [totalSize_cons, ih]; omega

lemma totalSize_sortAux (fs : List CacheFile) :
    ∀ acc, totalSize (fs.foldl (fun acc f => insertByMtime f acc) acc) =
      totalSize acc + totalSize fs := by
  induction fs with
  | nil => simp [totalSize]
  | cons f rest ih =>
    intro acc
    simp only [List.foldl_cons]
    rw [ih, totalSize_insertByMtime, totalSize_cons]
    omega

lemma totalSize_sortByMtime (fs : List CacheFile) :
    totalSize (sortByMtime fs) = totalSize fs := by
  unfold sortByMtime
  rw [totalSize_sortAux]
  simp [totalSize]

lemma evictLoop_append_drop (maxB t : Nat) (xs : List CacheFile) :
    evictLoop maxB t xs ++ xs.drop (evictLoop maxB t xs).length = xs := by
  induction xs generalizing t with
  | nil => simp [evictLoop]
  | cons f rest ih =>
    by_cases h : t ≤ maxB
    · simp [evictLoop, h]
    · simp only [evictLoop, if_neg h, List.length_cons, List.cons_append,
        List.drop_succ_cons]
      exact congrArg (f :: ·) (ih (t - f.size))

lemma evictLoop_le (maxB : Nat) (xs : List CacheFile) (t : Nat) (ht : t = totalSize xs) :
    totalSize (xs.drop (evictLoop maxB t xs).length) ≤ maxB := by
  induction xs generalizing t with
  | nil => simp [evictLoop, totalSize]
  | cons f rest ih =>
    by_cases h : t ≤ maxB
    · simp [evictLoop, h, ← ht]
    · have hrest : t - f.size = totalSize rest := by
        rw [ht, totalSize_cons]; omega
      simp only [evictLoop, if_neg h, List.length_cons, List.drop_succ_cons]
      exact ih _ hrest

lemma evictLoop_min (maxB : Nat) (xs : List CacheFile) (t : Nat) (ht : t = totalSize xs) :
    ∀ j < (evictLoop maxB t xs).length, maxB < t - totalSize (xs.take j) := by
  induction xs generalizing t with
  | nil => simp [evictLoop]
  | cons f rest ih =>
    by_cases h : t ≤ maxB
    · simp [evictLoop, h]
    · intro j hj
      simp only [evictLoop, if_neg h, List.length_cons] at hj
      cases j with
      | zero => simpa [totalSize] using h
      | succ j' =>
        have hrest : t - f.size = totalSize rest := by
          rw [ht, totalSize_cons]; omega
        have hih := ih _ hrest j' (by omega)
        simp only [List.take_succ_cons, totalSize_cons]
        omega

lemma remainingFiles_le (maxB : Nat) (files : List CacheFile) :
    totalSize (remainingFiles maxB files) ≤ maxB := by
  unfold remainingFiles deletedFiles
  by_cases h : totalSize files > maxB
  · rw [if_pos h]
    exact evictLoop_le maxB (sortByMtime files) _ (totalSize_sortByMtime files).symm
  · rw [if_neg h]
    simpa [totalSize_sortByMtime] using Nat.le_of_not_lt h

lemma filterMap_getElem_length (fs : List α) (idxs : List Nat)
    (h : ∀ i ∈ idxs, i < fs.length) :
    (idxs.filterMap (fun i => fs[i]?)).length = idxs.length := by
  induction idxs with
  | nil => simp
  | cons i rest ih =>
    have hi : i < fs.length := h i (by simp)
    have : fs[i]? = some fs[i] := List.getElem?_eq_getElem hi
    simp [List.filterMap_cons, this, ih (fun j hj => h j (by simp [hj]))]

lemma linspaceIdx_length (stop num : Nat) : (linspaceIdx stop num).length = num := by
  unfold linspaceIdx
  split
  · simp_all
  · split
    · simp_all
    · simp

lemma linspaceIdx_le (stop num : Nat) : ∀ i ∈ linspaceIdx stop num, i ≤ stop := by
  unfold linspaceIdx
  split
  · simp
  · split
    · simp
    · intro i hi
      simp only [List.mem_map, List.mem_range] at hi
      obtain ⟨j, hj, rfl⟩ := hi
      have h1 : j * stop ≤ (num - 1) * stop :=
        Nat.mul_le_mul_right stop (by omega)
      calc j * stop / (num - 1) ≤ (num - 1) * stop / (num - 1) :=
            Nat.div_le_div_right h1
        _ = stop := Nat.mul_div_cancel_left stop (by omega)

lemma foldl_idem_const {op : ℚ → ℚ → ℚ} (hop : ∀ x, op x x = x) (x : ℚ)
    (xs : List ℚ) (h : ∀ y ∈ xs, y = x) : xs.foldl op x = x := by
  induction xs with
  | nil => rfl
  | cons y ys ih =>
    have hy : y = x := h y (by simp)
    simp only [List.foldl_cons, hy, hop]
    exact ih (fun z hz => h z (by simp [hz]))

lemma allEqualGrid_flipud (g : Grid) (h : allEqualGrid g) : allEqualGrid (flipud g) := by
  intro v hv u hu
  simp only [gridEntries, flipud, List.mem_flatten, List.mem_reverse] at hv hu
  exact h v (by simpa [gridEntries, List.mem_flatten] using hv) u
    (by simpa [gridEntries, List.mem_flatten] using hu)

lemma gridMax_eq_gridMin (g : Grid) (h : allEqualGrid g) : gridMax g = gridMin g := by
  unfold gridMax gridMin
  cases hE : gridEntries g with
  | nil => rfl
  | cons x xs =>
    show List.foldl max x xs = List.foldl min x xs
    have hall : ∀ y ∈ xs, y = x := by
      intro y hy
      exact h y (by simp [hE, hy]) x (by simp [hE])
    rw [foldl_idem_const (fun a => max_self a) x xs hall,
      foldl_idem_const (fun a => min_self a) x xs hall]

lemma heatNorm_flat (powGamma : ℚ → ℚ) (d : Grid) (h : ¬ gridMax d > gridMin d) :
    heatNorm powGamma d = d.map (fun row => row.map (fun _ => 0)) := by
  simp [heatNorm, h]

lemma entryAt_of_allZero (g : Grid) (hz : allZeroGrid g) (a b : Nat) :
    entryAt g a b = 0 := by
  unfold entryAt
  rcases lt_or_ge a g.length with ha | ha
  · rw [List.getD_eq_getElem g [] ha]
    rcases lt_or_ge b (g[a]).length with hb | hb
    · rw [List.getD_eq_getElem _ 0 hb]
      refine hz _ ?_
      simp only [gridEntries, List.mem_flatten]
      exact ⟨g[a], List.getElem_mem ha, List.getElem_mem hb⟩
    · exact List.getD_eq_default _ 0 hb
  · rw [List.getD_eq_default g [] ha]
    exact List.getD_nil

/-! ## Claim theorems -/

/-- Claim C1, corrected, counterexample to the claim as stated: the claim
says the lookup checks the in-process tier first; in the state `stTwoTier`
the two tiers hold different entries for the same identity and the lookup
returns the on-disk entry `sdDisk`, not the in-process entry `sdMem` — so
the on-disk tier is consulted first. -/
theorem c1_in_process_first_counterexample :
    stTwoTier.mem "/demos/a.dem" = some sdMem
    ∧ sdMem ≠ sdDisk
    ∧ (parseLookup stTwoTier "/demos/a.dem").1 = some sdDisk
    ∧ ((parseLookup stTwoTier "/demos/a.dem").2).mem "/demos/a.dem" = some sdDisk :=
  ⟨by decide, by decide, by decide, by decide⟩

/-- Claim C1, amended: for every file identity, the cache lookup performed
when loading a demo checks the on-disk tier first and the in-process tier
second; a hit in the on-disk tier inserts the loaded entry into the
in-process tier before the lookup returns, and when the on-disk tier has no
valid artifact the result is exactly the in-process tier's content with the
state unchanged. -/
theorem c1_disk_tier_checked_first :
    (∀ (st : CacheState) (file : String) (s : StoredData),
        st.disk (external_cache_path file) = .valid s →
          parseLookup st file =
            (some s, { st with mem := fun f => if f = file then some s else st.mem f }))
    ∧ (∀ (st : CacheState) (file : String),
        (∀ s, st.disk (external_cache_path file) ≠ .valid s) →
          parseLookup st file = (st.mem file, st)) := by
  constructor
  · intro st file s h
    simp [parseLookup, h, isfile, load_from_cache, rawPickleLoad]
  · intro st file h
    cases hd : st.disk (external_cache_path file) with
    | absent =>
      cases hm : st.mem file <;>
        simp [parseLookup, hd, isfile, load_from_memory_cache, hm]
    | corrupt =>
      cases hm : st.mem file <;>
        simp [parseLookup, hd, isfile, load_from_cache, rawPickleLoad,
          load_from_memory_cache, hm]
    | valid s => exact absurd hd (h s)

/-- Witness for the amended C1 theorem at the concrete two-tier state. -/
theorem c1_disk_tier_checked_first_witness :
    stTwoTier.disk (external_cache_path "/demos/a.dem") = .valid sdDisk
    ∧ parseLookup stTwoTier "/demos/a.dem" =
        (some sdDisk, { stTwoTier with
          mem := fun f => if f = "/demos/a.dem" then some sdDisk else stTwoTier.mem f }) :=
  ⟨by decide, c1_disk_tier_checked_first.1 stTwoTier "/demos/a.dem" sdDisk (by decide)⟩

/-- Claim C2: when the event-extraction stages raise no error, a file is
rejected (not registered) exactly when the header could not be read or the
effective header lacks a map identifier — a header-read failure yields the
empty header, which lacks a map identifier — and a demo whose header has no
map identifier leaves the loaded list unchanged. -/
theorem c2_missing_map_identifier_rejected (r : ParseRun) (hok : r.othersOk = true) :
    ((open_dem_registers r = false) ↔
      ((∃ m, r.headerResult = .failed m) ∨ map_name (effectiveHeader r.headerResult) = ""))
    ∧ (∀ (loaded : List String) (file : String),
        map_name (effectiveHeader r.headerResult) = "" →
          on_parsed loaded file r = loaded) := by
  constructor
  · simp only [open_dem_registers, threadErr, threadHdr, hok, if_pos]
    constructor
    · intro h
      refine Or.inr ?_
      simpa using h
    · rintro (⟨m, hm⟩ | h)
      · simp [hm, effectiveHeader, map_name]
      · simpa using h
  · intro loaded file h
    simp [on_parsed, open_dem_registers, threadErr, threadHdr, hok, h]

/-- Witness for C2: a run whose header read raised is not registered and the
loaded list stays as it was. -/
theorem c2_missing_map_identifier_rejected_witness :
    prFailedHeader.othersOk = true
    ∧ map_name (effectiveHeader prFailedHeader.headerResult) = ""
    ∧ on_parsed ["/demos/earlier.dem"] "/demos/a.dem" prFailedHeader =
        ["/demos/earlier.dem"] :=
  ⟨rfl, rfl,
    (c2_missing_map_identifier_rejected prFailedHeader rfl).2
      ["/demos/earlier.dem"] "/demos/a.dem" rfl⟩

/-- Claim C3: team normalization is total (it is a function into
`Option String`, so it never raises and never returns a value outside
`{none, CT, T}`) and idempotent — `CT` and `T` map to themselves, and any
value it ever returns is a fixed point; the numeric codes 3 and 2 map to
`CT` and `T`, and every truthy input whose uppercased string form lies
outside the recognized code sets maps to `none`. -/
theorem c3_team_normalization_total_idempotent :
    (normalize_team_name (.str "CT") = some "CT"
      ∧ normalize_team_name (.str "T") = some "T")
    ∧ (∀ v r, normalize_team_name v = some r → normalize_team_name (.str r) = some r)
    ∧ (∀ v, normalize_team_name v = none ∨ normalize_team_name v = some "CT" ∨
        normalize_team_name v = some "T")
    ∧ (normalize_team_name (.num 3) = some "CT" ∧ normalize_team_name (.num 2) = some "T")
    ∧ (∀ v, pyTruthy v → pyUpper (pyStr v) ∉ ctCodes → pyUpper (pyStr v) ∉ tCodes →
        normalize_team_name v = none) := by
  refine ⟨⟨by decide, by decide⟩, ?_, ?_, ⟨by decide, by decide⟩, ?_⟩
  · intro v r h
    simp only [normalize_team_name] at h
    split at h
    · exact absurd h (by simp)
    · split at h
      · rw [Option.some_inj] at h
        subst h; decide
      · split at h
        · rw [Option.some_inj] at h
          subst h; decide
        · exact absurd h (by simp)
  · intro v
    simp only [normalize_team_name]
    split
    · exact Or.inl rfl
    · split
      · exact Or.inr (Or.inl rfl)
      · split
        · exact Or.inr (Or.inr rfl)
        · exact Or.inl rfl
  · intro v hv hct ht
    simp only [normalize_team_name]
    rw [if_neg (by simpa using hv)]
    rw [if_neg hct, if_neg ht]

/-- Witness for C3: idempotence applied at the concrete input
`COUNTERTERRORIST`, whose normalization `CT` renormalizes to itself. -/
theorem c3_team_normalization_total_idempotent_witness :
    normalize_team_name (.str "COUNTERTERRORIST") = some "CT"
    ∧ normalize_team_name (.str "CT") = some "CT" :=
  ⟨by decide,
    c3_team_normalization_total_idempotent.2.1 (.str "COUNTERTERRORIST") "CT" (by decide)⟩

/-- Claim C4: serializing a `NormalizedDemo` to the cache artifact form and
deserializing it back yields the demo field-for-field, and a `put` for an
identity followed immediately by a `get` for the same identity returns an
equivalent `NormalizedDemo`. -/
theorem c4_serialize_roundtrip_put_get :
    (∀ d : NormalizedDemo, loadStored (serialize d) = d)
    ∧ (∀ (st : CacheState) (file : String) (d : NormalizedDemo),
        cacheGet (cachePut st file d) file = some d) := by
  have roundtrip : ∀ d : NormalizedDemo, loadStored (serialize d) = d := by
    intro d
    cases d
    simp [loadStored, serialize, Finset.sort_toFinset]
  refine ⟨roundtrip, ?_⟩
  intro st file d
  simp [cacheGet, cachePut, storeStep, parseLookup, isfile, load_from_cache,
    rawPickleLoad, roundtrip d]

/-- Claim C5: after enforcing the disk budget `maxB`, the total size of the
surviving artifacts is at most `maxB` (deleting every artifact reaches 0, so
the bound is unconditional); the deleted artifacts are exactly a prefix of
the mtime-ascending ordering, and that prefix is minimal — deleting any
shorter prefix would leave the total above the budget. -/
theorem c5_disk_budget_oldest_first (maxB : Nat) (files : List CacheFile) :
    totalSize (remainingFiles maxB files) ≤ maxB
    ∧ deletedFiles maxB files ++ remainingFiles maxB files = sortByMtime files
    ∧ (∀ j < (deletedFiles maxB files).length,
        maxB < totalSize files - totalSize ((sortByMtime files).take j)) := by
  refine ⟨remainingFiles_le maxB files, ?_, ?_⟩
  · unfold remainingFiles deletedFiles
    by_cases h : totalSize files > maxB
    · rw [if_pos h]
      exact evictLoop_append_drop maxB _ (sortByMtime files)
    · simp [if_neg h]
  · intro j hj
    unfold deletedFiles at hj
    by_cases h : totalSize files > maxB
    · rw [if_pos h] at hj
      have := evictLoop_min maxB (sortByMtime files) _
        (totalSize_sortByMtime files).symm j hj
      omega
    · rw [if_neg h] at hj
      simp at hj

/-- Witness for C5: on two 6-byte artifacts against a 10-byte budget the
minimality bound holds at the concrete prefix length 0. -/
theorem c5_disk_budget_oldest_first_witness :
    0 < (deletedFiles 10 [⟨"a.pkl", 6, 5⟩, ⟨"b.pkl", 6, 2⟩]).length
    ∧ 10 < totalSize [⟨"a.pkl", 6, 5⟩, ⟨"b.pkl", 6, 2⟩]
        - totalSize ((sortByMtime [⟨"a.pkl", 6, 5⟩, ⟨"b.pkl", 6, 2⟩]).take 0) :=
  ⟨by decide,
    (c5_disk_budget_oldest_first 10 [⟨"a.pkl", 6, 5⟩, ⟨"b.pkl", 6, 2⟩]).2.2 0 (by decide)⟩

/-- Claim C6: a corrupted on-disk artifact makes `_load_from_cache` swallow
the deserialization failure and report a miss; the lookup then falls through
to the in-process tier with the state unchanged, and the full parse pipeline
produces the same demo as it would had the artifact been absent — the
corruption never propagates as an error. -/
theorem c6_corrupt_artifact_behaves_as_miss (st : CacheState) (file : String)
    (h : st.disk (external_cache_path file) = .corrupt) :
    load_from_cache st file (st.disk (external_cache_path file)) = none
    ∧ (parseLookup st file).1 = st.mem file
    ∧ (parseLookup st file).2 = st
    ∧ ∀ fresh : StoredData,
        (parse st file fresh).1 =
          (parse { st with disk := fun p =>
              if p = external_cache_path file then .absent else st.disk p } file fresh).1 := by
  refine ⟨by simp [load_from_cache, h, rawPickleLoad], ?_, ?_, ?_⟩
  · cases hm : st.mem file <;>
      simp [parseLookup, h, isfile, load_from_cache, rawPickleLoad,
        load_from_memory_cache, hm]
  · cases hm : st.mem file <;>
      simp [parseLookup, h, isfile, load_from_cache, rawPickleLoad,
        load_from_memory_cache, hm]
  · intro fresh
    cases hm : st.mem file <;>
      simp [parse, parseLookup, h, isfile, load_from_cache, rawPickleLoad,
        load_from_memory_cache, hm]

/-- Witness for C6 at the concrete corrupt-artifact state: the load reports
a miss and the lookup result is empty (both tiers miss). -/
theorem c6_corrupt_artifact_behaves_as_miss_witness :
    stCorrupt.disk (external_cache_path "/demos/a.dem") = .corrupt
    ∧ load_from_cache stCorrupt "/demos/a.dem"
        (stCorrupt.disk (external_cache_path "/demos/a.dem")) = none
    ∧ (parseLookup stCorrupt "/demos/a.dem").1 = none :=
  ⟨by decide,
    (c6_corrupt_artifact_behaves_as_miss stCorrupt "/demos/a.dem" (by decide)).1,
    by rw [(c6_corrupt_artifact_behaves_as_miss stCorrupt "/demos/a.dem" (by decide)).2.1]; rfl⟩

/-- Claim C7: for stride `N > 1` over more than one footstep the
downsampling keeps exactly `⌊L/N⌋` elements; the kept indices are spaced
linearly across `[0, L-1]` (the selection starts at index 0 and ends at
index `L-1` whenever at least two indices are kept), and on `N = 3` over 10
footsteps the kept indices are exactly `{0, 4, 9}` — not the naive
every-3rd-element slice `{0, 3, 6, 9}`. -/
theorem c7_downsample_evenly_spaced :
    (∀ (N : Nat) (fs : List Nat), 1 < N → 1 < fs.length →
        (apply_downsampling N fs).length = fs.length / N)
    ∧ (∀ L N : Nat, 1 < N → 2 ≤ L / N →
        (linspaceIdx (L - 1) (L / N)).head? = some 0 ∧
        (linspaceIdx (L - 1) (L / N)).getLast? = some (L - 1))
    ∧ apply_downsampling 3 (List.range 10) = [0, 4, 9]
    ∧ apply_downsampling 3 (List.range 10) ≠ [0, 3, 6, 9] := by
  refine ⟨?_, ?_, by decide, by decide⟩
  · intro N fs hN hL
    have hmax : max 1 N = N := Nat.max_eq_right (le_of_lt hN)
    simp only [apply_downsampling, hmax]
    rw [if_neg (by omega)]
    rw [filterMap_getElem_length _ _ ?_, linspaceIdx_length]
    intro i hi
    have := linspaceIdx_le (fs.length - 1) (fs.length / N) i hi
    omega
  · intro L N hN hnum
    constructor
    · unfold linspaceIdx
      rw [if_neg (by omega), if_neg (by omega)]
      have h2 : L / N = (L / N - 1) + 1 := by omega
      rw [h2, List.range_succ_eq_map]
      simp
    · unfold linspaceIdx
      rw [if_neg (by omega), if_neg (by omega)]
      rw [List.getLast?_eq_getElem?]
      simp only [List.length_map, List.length_range]
      rw [List.getElem?_map]
      rw [List.getElem?_range (by omega)]
      simp only [Option.map_some']
      rw [Nat.mul_div_cancel_left (L - 1) (by omega)]

/-- Witness for C7 at `N = 3` over the 10 footsteps `0..9`: 3 elements are
kept and the index selection runs from 0 to 9. -/
theorem c7_downsample_evenly_spaced_witness :
    ((1 < 3 ∧ 1 < (List.range 10).length)
      ∧ (apply_downsampling 3 (List.range 10)).length = (List.range 10).length / 3)
    ∧ ((linspaceIdx (10 - 1) (10 / 3)).head? = some 0
      ∧ (linspaceIdx (10 - 1) (10 / 3)).getLast? = some (10 - 1)) :=
  ⟨⟨⟨by decide, by decide⟩,
      c7_downsample_evenly_spaced.1 3 (List.range 10) (by decide) (by decide)⟩,
    c7_downsample_evenly_spaced.2.1 10 3 (by decide) (by decide)⟩

/-- Claim C8, corrected, counterexample to the claim as stated: on the
all-equal (all-zero) grid the `vmax == vmin` branch zeroes the normalized
values, but brightness/contrast are applied afterwards — at brightness 1/2
(within the UI's range) and contrast 1 every alpha value is 127, so the
image is not fully transparent. -/
theorem c8_flat_grid_counterexample :
    allEqualGrid [[0, 0], [0, 0]]
    ∧ heatmap_alpha (fun x => x) [[0, 0], [0, 0]] (1/2) 1 = [[127, 127], [127, 127]]
    ∧ ¬ (∀ row ∈ heatmap_alpha (fun x => x) [[(0 : ℚ), 0], [0, 0]] (1/2) 1,
          ∀ a ∈ row, a = 0) := by
  have h2 : heatmap_alpha (fun x => x) [[(0 : ℚ), 0], [0, 0]] (1/2) 1 =
      [[127, 127], [127, 127]] := by
    norm_num [heatmap_alpha, heatNorm, gridSize, gridEntries, flipud, gridMax,
      gridMin, clip01, toUint8, List.replicate]
    decide
  refine ⟨by decide, h2, ?_⟩
  rw [h2]
  decide

/-- Claim C8, amended: for every nonempty density grid whose values are all
equal — in particular an all-zero grid, before or after a linear filter such
as a Gaussian blur at any sigma, which preserves all-zero grids — rendering
takes the `vmax == vmin` branch, the normalized values are all zero, and at
the default brightness 0 and contrast 1 the produced image has alpha 0
everywhere. -/
theorem c8_flat_grid_transparent_default_levels :
    (∀ (powGamma : ℚ → ℚ) (g : Grid), allEqualGrid g → 0 < gridSize g →
        (¬ gridMax (flipud g) > gridMin (flipud g))
        ∧ heatNorm powGamma (flipud g) = (flipud g).map (fun row => row.map (fun _ => 0))
        ∧ heatmap_alpha powGamma g 0 1 = (flipud g).map (fun row => row.map (fun _ => 0)))
    ∧ (∀ (w : Nat → Nat → Nat → Nat → ℚ) (g : Grid), allZeroGrid g →
        allZeroGrid (convolve2D w g)) := by
  constructor
  · intro powGamma g hEq hSz
    have hflip := allEqualGrid_flipud g hEq
    have hMaxMin : gridMax (flipud g) = gridMin (flipud g) :=
      gridMax_eq_gridMin (flipud g) hflip
    have hne : ¬ gridMax (flipud g) > gridMin (flipud g) := by
      rw [hMaxMin]; exact lt_irrefl _
    refine ⟨hne, heatNorm_flat powGamma (flipud g) hne, ?_⟩
    unfold heatmap_alpha
    rw [if_neg (by omega)]
    dsimp only
    rw [heatNorm_flat powGamma (flipud g) hne]
    simp only [List.map_map, Function.comp]
    norm_num [clip01, toUint8]
  · intro w g hz
    intro v hv
    simp only [convolve2D, gridEntries, List.mem_flatten, List.mem_map,
      List.mem_range] at hv
    obtain ⟨row, ⟨⟨i, hi, rfl⟩, hvrow⟩⟩ := hv
    simp only [List.mem_map, List.mem_range] at hvrow
    obtain ⟨j, hj, rfl⟩ := hvrow
    refine List.sum_eq_zero ?_
    intro x hx
    simp only [List.mem_map, List.mem_range] at hx
    obtain ⟨a, ha, rfl⟩ := hx
    refine List.sum_eq_zero ?_
    intro y hy
    simp only [List.mem_map, List.mem_range] at hy
    obtain ⟨b, hb, rfl⟩ := hy
    rw [entryAt_of_allZero g hz a b, mul_zero]

/-- Witness for the amended C8 theorem on a concrete all-equal nonzero grid
at default brightness and contrast: the alpha channel is zero everywhere. -/
theorem c8_flat_grid_transparent_default_levels_witness :
    (allEqualGrid [[1, 1], [1, 1]] ∧ 0 < gridSize [[(1 : ℚ), 1], [1, 1]])
    ∧ heatmap_alpha (fun x => x) [[1, 1], [1, 1]] 0 1 = [[0, 0], [0, 0]] :=
  ⟨⟨by decide, by decide⟩,
    ((c8_flat_grid_transparent_default_levels.1 (fun x => x) [[1, 1], [1, 1]]
        (by decide) (by decide)).2.2).trans (by decide)⟩

/-- Claim C9: a non-empty footstep sequence of length `L` with
`1 < L < N` downsamples to `⌊L/N⌋ = 0` kept indices, so the result is the
empty sequence. -/
theorem c9_downsample_empties_short_input (N : Nat) (fs : List Nat)
    (h1 : 1 < fs.length) (h2 : fs.length < N) :
    apply_downsampling N fs = [] := by
  have hmax : max 1 N = N := Nat.max_eq_right (by omega)
  simp only [apply_downsampling, hmax]
  rw [if_neg (by omega)]
  have : fs.length / N = 0 := Nat.div_eq_of_lt h2
  rw [this]
  simp [linspaceIdx]

/-- Witness for C9: a 2-element sequence with stride 4 downsamples to the
empty sequence. -/
theorem c9_downsample_empties_short_input_witness :
    (1 < ([5, 7] : List Nat).length ∧ ([5, 7] : List Nat).length < 4)
    ∧ apply_downsampling 4 ([5, 7] : List Nat) = [] :=
  ⟨⟨by decide, by decide⟩,
    c9_downsample_empties_short_input 4 [5, 7] (by decide) (by decide)⟩

/-- Claim C10: the disk-budget enforcement runs before the new artifact is
written, so the budget bound holds only over the pre-existing artifacts:
after the write the directory total is at most `maxB` plus the new
artifact's size, and there are states (10-byte budget, one 10-byte artifact,
5-byte new artifact) where it strictly exceeds the budget. -/
theorem c10_budget_enforced_before_write :
    (∀ (maxB : Nat) (files : List CacheFile) (newArtifact : CacheFile),
        totalSize (parseStorePhase maxB files newArtifact) ≤ maxB + newArtifact.size)
    ∧ 10 < totalSize (parseStorePhase 10 [⟨"old.pkl", 10, 0⟩] ⟨"new.pkl", 5, 1⟩) := by
  constructor
  · intro maxB files newArtifact
    unfold parseStorePhase
    rw [totalSize_append]
    have h1 := remainingFiles_le maxB files
    have h2 : totalSize [newArtifact] = newArtifact.size := by simp [totalSize]
    omega
  · decide

end DemoViewer
